import Mathlib

/-!
Verification of the churn-analysis pipeline in FUTURE_DS_02.py.

A pandas DataFrame is embedded as a list of rows; only the columns the
pipeline reads are modelled.  `to_numeric(..., errors="coerce")` is
modelled at its boundary: the raw `TotalCharges` cell is an `Option ℚ`
(`some q` when the cell parses as a number, `none` when it is the NaN
missing marker produced by the coercion).  Floating-point values are
modelled as rationals.  `tenure` is modelled as an integer, which may a
priori be negative; claims about non-negative tenure take it as a
hypothesis.
-/

/-- One row of the loaded dataset, restricted to the columns the
pipeline reads.  `TotalCharges` is the result of the strict numeric
coercion: `none` is the missing marker. -/
structure RawRow where
  Contract : String
  InternetService : String
  OnlineSecurity : String
  OnlineBackup : String
  DeviceProtection : String
  TechSupport : String
  StreamingTV : String
  StreamingMovies : String
  Churn : String
  tenure : Int
  MonthlyCharges : ℚ
  TotalCharges : Option ℚ
deriving DecidableEq, Repr

/-- The median value pandas computes for a nonempty series of present
values: sort, take the middle element for odd length, the mean of the
two middle elements for even length. -/
def medianVal (xs : List ℚ) : ℚ :=
  let s := xs.insertionSort (fun a b => a ≤ b)
  let n := s.length
  if n % 2 = 1 then s.getD (n / 2) 0
  else (s.getD (n / 2 - 1) 0 + s.getD (n / 2) 0) / 2

/-- pandas `Series.median()` on a series: the median of an empty series
is the missing marker `none`. -/
def median (xs : List ℚ) : Option ℚ :=
  if xs = [] then none else some (medianVal xs)

/-- `Series.fillna(m)`: a present value is kept, a missing one is
replaced by the fill value `m` (itself possibly missing, in which case
the cell stays missing, as `fillna(nan)` leaves NaN in place). -/
def fillna (m : Option ℚ) (x : Option ℚ) : Option ℚ :=
  match x with
  | some v => some v
  | none => m

/-- Lines 24-25 of the source: coerce `TotalCharges` (already reflected
in the `Option` type of the field) and fill its missing entries with the
median of the same column. -/
def cleanTable (rows : List RawRow) : List RawRow :=
  let m := median (rows.filterMap (fun r => r.TotalCharges))
  rows.map (fun r => { r with TotalCharges := fillna m r.TotalCharges })

/-- Line 29: `df["Churn"].map({"Yes": 1, "No": 0})`; a key absent from
the mapping dictionary yields the missing marker. -/
def churnMap (s : String) : Option Nat :=
  if s = "Yes" then some 1 else if s = "No" then some 0 else none

/-- The six add-on service columns of line 32, in source order. -/
def serviceFields (r : RawRow) : List String :=
  [r.OnlineSecurity, r.OnlineBackup, r.DeviceProtection,
   r.TechSupport, r.StreamingTV, r.StreamingMovies]

/-- Line 33: `(df[services] == "Yes").sum(axis=1)`. -/
def serviceCount (r : RawRow) : Nat :=
  (serviceFields r).countP (fun v => v = "Yes")

/-- Division as the operation that errors on a zero denominator; used to
express that the `tenure + 1` denominator never triggers that branch. -/
def safeDiv (a b : ℚ) : Option ℚ :=
  if b = 0 then none else some (a / b)

/-- A row after feature engineering: the original columns plus the
derived ones.  `Risk_Score` is `none` while the column is absent; the
scorer fills it in. -/
structure EngRow extends RawRow where
  Churn_Numeric : Option Nat
  Service_Count : Nat
  Charge_Velocity : Option ℚ
  Is_Long_Term : Nat
  Risk_Score : Option Nat
deriving DecidableEq, Repr

/-- Lines 27-39 of the source, per row: the five derived columns, each
computed from the row's original fields only. -/
def engineerRow (r : RawRow) : EngRow :=
  { toRawRow := r
    Churn_Numeric := churnMap r.Churn
    Service_Count := serviceCount r
    Charge_Velocity := safeDiv r.MonthlyCharges ((r.tenure : ℚ) + 1)
    Is_Long_Term := if r.Contract = "One year" ∨ r.Contract = "Two year" then 1 else 0
    Risk_Score := none }

/-- `process_data` without the file read: clean `TotalCharges`, then add
the derived columns. -/
def process_data (rows : List RawRow) : List EngRow :=
  (cleanTable rows).map engineerRow

/-- Lines 50-54 of the source, per row: `Risk_Score` starts at 0 and each
of the four rules adds its points when its condition holds. -/
def riskScoreOf (r : RawRow) : Nat :=
  let s0 : Nat := 0
  let s1 := if r.Contract = "Month-to-month" then s0 + 40 else s0
  let s2 := if r.InternetService = "Fiber optic" then s1 + 20 else s1
  let s3 := if r.TechSupport = "No" then s2 + 20 else s2
  let s4 := if r.tenure < 12 then s3 + 20 else s3
  s4

/-- `calculate_risk_scores`: adds or overwrites the `Risk_Score` column
with the rule total; every other column is untouched. -/
def calculate_risk_scores (df : List EngRow) : List EngRow :=
  df.map (fun r => { r with Risk_Score := some (riskScoreOf r.toRawRow) })

/-- pandas `Series.mean()` over a column that may hold missing values:
missing entries are skipped; the mean of an all-missing column is
missing. -/
def meanOpt (xs : List (Option ℚ)) : Option ℚ :=
  let v := xs.filterMap id
  if v = [] then none else some (v.sum / v.length)

/-- View an integer-valued column cell as a rational one, preserving the
missing marker. -/
def natColToRat (x : Option Nat) : Option ℚ :=
  match x with
  | some n => some ((n : ℚ))
  | none => none

/-- The three aggregates printed by `generate_report` (lines 114-116):
churn rate, average risk score, high-risk customer count. -/
def generate_report (df : List EngRow) : Option ℚ × Option ℚ × Nat :=
  (Option.map (fun m => m * 100)
      (meanOpt (df.map (fun r => natColToRat r.Churn_Numeric))),
   meanOpt (df.map (fun r => natColToRat r.Risk_Score)),
   df.countP (fun r => match r.Risk_Score with
     | some s => decide (60 ≤ s)
     | none => false))

/-- The aggregates as the specification words them: overall churn rate is
the mean of `Churn_Numeric` times 100, average risk score is the mean of
`Risk_Score`, and the high-risk count is the number of rows whose
`Risk_Score` is at least 60. -/
def specAggregates (df : List EngRow) : Option ℚ × Option ℚ × Nat :=
  (Option.map (fun m => 100 * m)
      (meanOpt (df.map (fun r => natColToRat r.Churn_Numeric))),
   meanOpt (df.map (fun r => natColToRat r.Risk_Score)),
   (df.filter (fun r => match r.Risk_Score with
     | some s => decide (60 ≤ s)
     | none => false)).length)

/-- The error kinds a run can raise: the file-not-found error of the
loader, or any other unrecovered fault. -/
inductive PyError where
  | fileNotFound
  | other (msg : String)
deriving DecidableEq, Repr

/-- Externally observable effects of one run: how many error lines were
printed and whether the dashboard image file was written. -/
structure RunEffects where
  consoleErrorLines : Nat
  imageWritten : Bool
deriving DecidableEq, Repr

/-- `pd.read_csv`: raises the file-not-found error when the file is
absent, otherwise yields its rows. -/
def readCsv (file : Option (List RawRow)) : Except PyError (List RawRow) :=
  match file with
  | none => Except.error PyError.fileNotFound
  | some rows => Except.ok rows

/-- The body of the `try` block (lines 142-148): load and process the
data, render the dashboard (which writes the image), print the report. -/
def pipelineBody (file : Option (List RawRow)) : Except PyError RunEffects :=
  match readCsv file with
  | Except.error e => Except.error e
  | Except.ok rows =>
      let _data := calculate_risk_scores (process_data rows)
      Except.ok { consoleErrorLines := 0, imageWritten := true }

/-- The `except FileNotFoundError` clause (lines 150-151): that one error
kind becomes a single console error line and a normal exit; every other
error propagates unhandled. -/
def topLevelHandler (body : Except PyError RunEffects) : Except PyError RunEffects :=
  match body with
  | Except.ok eff => Except.ok eff
  | Except.error PyError.fileNotFound =>
      Except.ok { consoleErrorLines := 1, imageWritten := false }
  | Except.error e => Except.error e

/-- The `__main__` driver: run the pipeline under the top-level handler. -/
def mainRun (file : Option (List RawRow)) : Except PyError RunEffects :=
  topLevelHandler (pipelineBody file)

/-! Concrete sample rows used by the witness theorems. -/

/-- A customer matching all four risk rules (month-to-month, fiber optic,
no tech support, tenure below 12), with churn label Yes. -/
def rowAllM : RawRow :=
  { Contract := "Month-to-month"
    InternetService := "Fiber optic"
    OnlineSecurity := "No"
    OnlineBackup := "Yes"
    DeviceProtection := "No"
    TechSupport := "No"
    StreamingTV := "Yes"
    StreamingMovies := "Yes"
    Churn := "Yes"
    tenure := 3
    MonthlyCharges := 70
    TotalCharges := some 210 }

/-- A customer matching none of the four risk rules, with churn label No. -/
def rowNoneM : RawRow :=
  { Contract := "Two year"
    InternetService := "DSL"
    OnlineSecurity := "Yes"
    OnlineBackup := "No"
    DeviceProtection := "No internet service"
    TechSupport := "Yes"
    StreamingTV := "No"
    StreamingMovies := "No"
    Churn := "No"
    tenure := 48
    MonthlyCharges := 50
    TotalCharges := some 2400 }

/-- `rowAllM` after feature engineering. -/
def engAllM : EngRow := engineerRow rowAllM

/-- `engAllM` after scoring. -/
def scoredAllM : EngRow := { engAllM with Risk_Score := some (riskScoreOf engAllM.toRawRow) }

/-- The rule total of `riskScoreOf` equals the sum of the four
independent contributions. -/
theorem riskScoreOf_eq_sum (r : RawRow) :
    riskScoreOf r
      = (if r.Contract = "Month-to-month" then 40 else 0)
        + (if r.InternetService = "Fiber optic" then 20 else 0)
        + (if r.TechSupport = "No" then 20 else 0)
        + (if r.tenure < 12 then 20 else 0) := by
  unfold riskScoreOf
  by_cases h1 : r.Contract = "Month-to-month" <;>
    by_cases h2 : r.InternetService = "Fiber optic" <;>
      by_cases h3 : r.TechSupport = "No" <;>
        by_cases h4 : r.tenure < 12 <;>
          simp [h1, h2, h3, h4]

/-- The rule total always lands on a multiple of 20 between 0 and 100. -/
theorem riskScoreOf_mem (r : RawRow) :
    riskScoreOf r ∈ [0, 20, 40, 60, 80, 100] := by
  unfold riskScoreOf
  by_cases h1 : r.Contract = "Month-to-month" <;>
    by_cases h2 : r.InternetService = "Fiber optic" <;>
      by_cases h3 : r.TechSupport = "No" <;>
        by_cases h4 : r.tenure < 12 <;>
          simp [h1, h2, h3, h4]

/-- C1: every row of `calculate_risk_scores`' output carries a
`Risk_Score` equal to the sum of the four rule contributions (+40
month-to-month, +20 fiber optic, +20 no tech support, +20 tenure below
12), hence in {0,20,40,60,80,100}; a row matching all four conditions
scores 100 and a row matching none scores 0. -/
theorem riskScore_rule_sum (df : List EngRow) (r : EngRow)
    (h : r ∈ calculate_risk_scores df) :
    r.Risk_Score
        = some ((if r.Contract = "Month-to-month" then 40 else 0)
          + (if r.InternetService = "Fiber optic" then 20 else 0)
          + (if r.TechSupport = "No" then 20 else 0)
          + (if r.tenure < 12 then 20 else 0))
      ∧ (∃ s, r.Risk_Score = some s ∧ s ∈ [0, 20, 40, 60, 80, 100])
      ∧ (r.Contract = "Month-to-month" ∧ r.InternetService = "Fiber optic"
          ∧ r.TechSupport = "No" ∧ r.tenure < 12 → r.Risk_Score = some 100)
      ∧ (r.Contract ≠ "Month-to-month" ∧ r.InternetService ≠ "Fiber optic"
          ∧ r.TechSupport ≠ "No" ∧ ¬ r.tenure < 12 → r.Risk_Score = some 0) := by
  unfold calculate_risk_scores at h
  obtain ⟨x, hx, rfl⟩ := List.mem_map.mp h
  refine ⟨?_, ⟨riskScoreOf x.toRawRow, rfl, riskScoreOf_mem x.toRawRow⟩, ?_, ?_⟩
  · exact congrArg some (riskScoreOf_eq_sum x.toRawRow)
  · rintro ⟨h1, h2, h3, h4⟩
    rw [congrArg some (riskScoreOf_eq_sum x.toRawRow)]
    simp only at h1 h2 h3 h4
    simp [h1, h2, h3, h4]
  · rintro ⟨h1, h2, h3, h4⟩
    rw [congrArg some (riskScoreOf_eq_sum x.toRawRow)]
    simp only at h1 h2 h3 h4
    simp [h1, h2, h3, h4]

/-- Witness for C1: the sample row matching all four rules, run through
the scorer, carries score 100. -/
theorem riskScore_rule_sum_witness : scoredAllM.Risk_Score = some 100 := by
  have h : scoredAllM ∈ calculate_risk_scores [engAllM] :=
    List.mem_singleton.mpr rfl
  exact (riskScore_rule_sum [engAllM] scoredAllM h).2.2.1
    ⟨rfl, rfl, rfl, by decide⟩

/-- C3: `Service_Count` equals the number of the six add-on fields whose
value is exactly the string Yes; any other value counts as non-match, so
the count is at most 6. -/
theorem serviceCount_spec (r : RawRow) :
    (engineerRow r).Service_Count
        = (if r.OnlineSecurity = "Yes" then 1 else 0)
          + (if r.OnlineBackup = "Yes" then 1 else 0)
          + (if r.DeviceProtection = "Yes" then 1 else 0)
          + (if r.TechSupport = "Yes" then 1 else 0)
          + (if r.StreamingTV = "Yes" then 1 else 0)
          + (if r.StreamingMovies = "Yes" then 1 else 0)
      ∧ (engineerRow r).Service_Count ≤ 6 := by
  show serviceCount r = _ ∧ serviceCount r ≤ 6
  unfold serviceCount serviceFields
  by_cases h1 : r.OnlineSecurity = "Yes" <;>
    by_cases h2 : r.OnlineBackup = "Yes" <;>
      by_cases h3 : r.DeviceProtection = "Yes" <;>
        by_cases h4 : r.TechSupport = "Yes" <;>
          by_cases h5 : r.StreamingTV = "Yes" <;>
            by_cases h6 : r.StreamingMovies = "Yes" <;>
              simp [h1, h2, h3, h4, h5, h6, List.countP_cons]

/-- C4: `Churn_Numeric` is 1 on churn label Yes, 0 on No, missing on any
other label, and any present value is 0 or 1. -/
theorem churnNumeric_spec (r : RawRow) :
    (r.Churn = "Yes" → (engineerRow r).Churn_Numeric = some 1)
      ∧ (r.Churn = "No" → (engineerRow r).Churn_Numeric = some 0)
      ∧ (r.Churn ≠ "Yes" → r.Churn ≠ "No" → (engineerRow r).Churn_Numeric = none)
      ∧ (∀ v, (engineerRow r).Churn_Numeric = some v → v = 0 ∨ v = 1) := by
  show (_ → churnMap r.Churn = _) ∧ (_ → churnMap r.Churn = _)
    ∧ (_ → _ → churnMap r.Churn = _) ∧ ∀ v, churnMap r.Churn = some v → _
  unfold churnMap
  by_cases h1 : r.Churn = "Yes" <;> by_cases h2 : r.Churn = "No" <;>
    simp [h1, h2]

/-- Witness for C4: the sample rows with labels Yes and No map to 1
and 0. -/
theorem churnNumeric_spec_witness :
    (engineerRow rowAllM).Churn_Numeric = some 1
      ∧ (engineerRow rowNoneM).Churn_Numeric = some 0 :=
  ⟨(churnNumeric_spec rowAllM).1 rfl, (churnNumeric_spec rowNoneM).2.1 rfl⟩

/-- C6: for a row with non-negative tenure the denominator tenure + 1 is
nonzero, so `Charge_Velocity` is well defined and equals the monthly
charge divided by tenure + 1. -/
theorem chargeVelocity_spec (r : RawRow) (h : 0 ≤ r.tenure) :
    ((r.tenure : ℚ) + 1) ≠ 0
      ∧ (engineerRow r).Charge_Velocity
          = some (r.MonthlyCharges / ((r.tenure : ℚ) + 1)) := by
  have ht : (0 : ℚ) ≤ (r.tenure : ℚ) := by exact_mod_cast h
  have hne : ((r.tenure : ℚ) + 1) ≠ 0 := by
    have : (0 : ℚ) < (r.tenure : ℚ) + 1 := by linarith
    exact this.ne'
  refine ⟨hne, ?_⟩
  show safeDiv r.MonthlyCharges ((r.tenure : ℚ) + 1) = _
  unfold safeDiv
  rw [if_neg hne]

/-- Witness for C6: the sample row with tenure 3 has a well-defined
charge velocity. -/
theorem chargeVelocity_spec_witness :
    ((rowAllM.tenure : ℚ) + 1) ≠ 0
      ∧ (engineerRow rowAllM).Charge_Velocity
          = some (rowAllM.MonthlyCharges / ((rowAllM.tenure : ℚ) + 1)) :=
  chargeVelocity_spec rowAllM (by decide)

/-- C7: feature engineering only adds columns: per row every original
field is preserved, and over a whole table projecting the engineered
output back to the original columns returns exactly the cleaned input. -/
theorem engineer_preserves_originals (rows : List RawRow) :
    (process_data rows).map (fun e => e.toRawRow) = cleanTable rows
      ∧ ∀ r : RawRow, (engineerRow r).toRawRow = r := by
  constructor
  · unfold process_data
    rw [List.map_map]
    have : (fun e : EngRow => e.toRawRow) ∘ engineerRow = fun r : RawRow => r := by
      funext r
      rfl
    rw [this, List.map_id']
  · intro r
    rfl

/-- C9: re-deriving the feature columns from the original fields of an
already-engineered table reproduces the same engineered table. -/
theorem engineer_idempotent (rows : List RawRow) :
    (process_data rows).map (fun e => engineerRow e.toRawRow) = process_data rows := by
  unfold process_data
  rw [List.map_map]
  rfl

/-- C10: the scorer overwrites `Risk_Score` from the original fields
alone, so it is idempotent and insensitive to any pre-existing
`Risk_Score` values: scores never accumulate across invocations. -/
theorem riskScores_idempotent (df : List EngRow) :
    calculate_risk_scores (calculate_risk_scores df) = calculate_risk_scores df
      ∧ ∀ f : EngRow → Option Nat,
          calculate_risk_scores (df.map (fun r => { r with Risk_Score := f r }))
            = calculate_risk_scores df := by
  constructor
  · unfold calculate_risk_scores
    rw [List.map_map]
    rfl
  · intro f
    unfold calculate_risk_scores
    rw [List.map_map]
    rfl

/-- C5: a missing input file yields exactly one console error line, no
image file, and a normal exit; the file-not-found error is the only error
kind the top-level handler intercepts. -/
theorem missing_file_behavior :
    mainRun none = Except.ok { consoleErrorLines := 1, imageWritten := false }
      ∧ ∀ e : PyError, e ≠ PyError.fileNotFound →
          topLevelHandler (Except.error e) = Except.error e := by
  constructor
  · rfl
  · intro e he
    cases e with
    | fileNotFound => exact absurd rfl he
    | other msg => rfl

/-- Witness for C5: the handler lets a non-file-not-found error through
unchanged while the missing-file run exits normally. -/
theorem missing_file_behavior_witness :
    mainRun none = Except.ok { consoleErrorLines := 1, imageWritten := false }
      ∧ topLevelHandler (Except.error (PyError.other "boom"))
          = Except.error (PyError.other "boom") :=
  ⟨missing_file_behavior.1,
   missing_file_behavior.2 (PyError.other "boom") (by decide)⟩

/-- A row whose `TotalCharges` cell failed numeric parsing. -/
def unparsedRow : RawRow := { rowAllM with TotalCharges := none }

/-- Counterexample to C2 as stated: on a table whose every `TotalCharges`
entry is unparseable, the median of the (empty) parsed values is itself
missing, `fillna` fills nothing, and the cleaned column still has a
missing value. -/
theorem cleanTable_missing_counterexample :
    ¬ (∀ r ∈ cleanTable [unparsedRow], r.TotalCharges ≠ none) := by
  decide

/-- C2 (amended): provided at least one `TotalCharges` value parses, the
median of the parsed values exists, every parsed value is kept unchanged,
every missing value is replaced by that median, and the cleaned column
has no missing values. -/
theorem cleanTable_spec (rows : List RawRow)
    (h : rows.filterMap (fun r => r.TotalCharges) ≠ []) :
    ∃ m, median (rows.filterMap (fun r => r.TotalCharges)) = some m
      ∧ cleanTable rows
          = rows.map (fun r => { r with TotalCharges := some (r.TotalCharges.getD m) })
      ∧ ∀ r ∈ cleanTable rows, r.TotalCharges ≠ none := by
  have hm : median (rows.filterMap (fun r => r.TotalCharges))
      = some (medianVal (rows.filterMap (fun r => r.TotalCharges))) := by
    unfold median
    rw [if_neg h]
  have hmap : ∀ m : ℚ, median (rows.filterMap (fun r => r.TotalCharges)) = some m →
      cleanTable rows = rows.map (fun r => { r with TotalCharges := some (r.TotalCharges.getD m) }) := by
    intro m hm2
    have hfun : (fun r : RawRow => { r with TotalCharges := fillna (some m) r.TotalCharges })
        = fun r : RawRow => { r with TotalCharges := some (r.TotalCharges.getD m) } := by
      funext r
      cases hr : r.TotalCharges <;> simp [fillna, hr]
    simp only [cleanTable]
    rw [hm2, hfun]
  refine ⟨medianVal (rows.filterMap (fun r => r.TotalCharges)), hm, hmap _ hm, ?_⟩
  rw [hmap _ hm]
  intro r hr
  obtain ⟨x, hx, rfl⟩ := List.mem_map.mp hr
  simp

/-- The sample table of three rows, one of them with an unparseable
`TotalCharges` cell. -/
def rowsSample : List RawRow := [rowAllM, unparsedRow, rowNoneM]

/-- Witness for C2 (amended): on the sample table, whose parsed values
are nonempty, cleaning fills the one missing cell with their median and
leaves no missing value. -/
theorem cleanTable_spec_witness :
    ∃ m, median (rowsSample.filterMap (fun r => r.TotalCharges)) = some m
      ∧ cleanTable rowsSample
          = rowsSample.map (fun r => { r with TotalCharges := some (r.TotalCharges.getD m) })
      ∧ ∀ r ∈ cleanTable rowsSample, r.TotalCharges ≠ none :=
  cleanTable_spec rowsSample (by decide)

/-- Dropping the `Option` layer from a column whose every cell is
present recovers the plain column of values. -/
theorem filterMap_id_map_some {α β : Type} (f : α → β) (l : List α) :
    (l.map (fun a => some (f a))).filterMap id = l.map f := by
  induction l with
  | nil => rfl
  | cons a t ih => simp [List.filterMap_cons, ih]

/-- C8: the report aggregates match the specified formulas: they agree
with the spec-worded definitions, and on a scored table the average risk
score is the mean of the per-row rule totals and the high-risk count is
the number of rows whose rule total is at least 60. -/
theorem generate_report_spec (u : List EngRow) (h : u ≠ []) :
    generate_report (calculate_risk_scores u) = specAggregates (calculate_risk_scores u)
      ∧ (generate_report (calculate_risk_scores u)).2.1
          = some ((u.map (fun r => (riskScoreOf r.toRawRow : ℚ))).sum / u.length)
      ∧ (generate_report (calculate_risk_scores u)).2.2
          = u.countP (fun r => decide (60 ≤ riskScoreOf r.toRawRow)) := by
  refine ⟨?_, ?_, ?_⟩
  · unfold generate_report specAggregates
    refine Prod.ext ?_ (Prod.ext rfl ?_)
    · show Option.map (fun m => m * 100) _ = Option.map (fun m => 100 * m) _
      cases meanOpt ((calculate_risk_scores u).map (fun r => natColToRat r.Churn_Numeric)) with
      | none => rfl
      | some m =>
        show some (m * 100) = some (100 * m)
        rw [mul_comm]
    · show List.countP _ _ = (List.filter _ _).length
      rw [List.countP_eq_length_filter]
  · show meanOpt ((calculate_risk_scores u).map (fun r => natColToRat r.Risk_Score)) = _
    have hcol : ((calculate_risk_scores u).map (fun r => natColToRat r.Risk_Score)).filterMap id
        = u.map (fun r => (riskScoreOf r.toRawRow : ℚ)) := by
      unfold calculate_risk_scores
      rw [List.map_map]
      show ((u.map (fun r : EngRow => some ((riskScoreOf r.toRawRow : ℚ)))).filterMap id) = _
      exact filterMap_id_map_some (fun r : EngRow => (riskScoreOf r.toRawRow : ℚ)) u
    unfold meanOpt
    rw [hcol, if_neg (by simp [h]), List.length_map]
  · show List.countP _ (calculate_risk_scores u) = _
    unfold calculate_risk_scores
    rw [List.countP_map]
    rfl

/-- Witness for C8: the aggregates of the scored one-row sample table. -/
theorem generate_report_spec_witness :
    generate_report (calculate_risk_scores [engAllM]) = specAggregates (calculate_risk_scores [engAllM])
      ∧ (generate_report (calculate_risk_scores [engAllM])).2.1
          = some ((([engAllM] : List EngRow).map (fun r => (riskScoreOf r.toRawRow : ℚ))).sum / ([engAllM] : List EngRow).length)
      ∧ (generate_report (calculate_risk_scores [engAllM])).2.2
          = ([engAllM] : List EngRow).countP (fun r => decide (60 ≤ riskScoreOf r.toRawRow)) :=
  generate_report_spec [engAllM] (by simp)
